import Mathlib

/-!
Shallow embedding of `patrickstar/core/eviction_policy.py` (PatrickStar's
predictive chunk-eviction engine) and proofs of the specification claims.

The embedded code consists of:
  * `trace_access`            — records the current moment for a (chunk, device) pair;
  * `chunk_next_used_moment`  — the cyclic next-use predictor (`_chunk_next_used_moment`);
  * `derive_eviction_list`    — `LRUEvictionPolicy.derive_eviction_list`.

Python dictionaries are modelled as association lists with first-match lookup
(keys produced by `trace_access` are unique, matching dict semantics), the
`queue.PriorityQueue` drained in the while-loop is modelled by sorting the
pushed `(-next_mom, chunk_id)` entries in ascending tuple order — the exact
pop order of a binary heap on pairwise-distinct keys — and machine integers
are `Nat`/`Int` (byte counts are non-negative; the required byte count is an
`Int` so that negative requests can be analysed).
-/

/-- A device descriptor: the engine compares devices by `type`
(`chunk.get_device().type == target_device.type`) and uses the whole
descriptor as part of the access-trace key. -/
structure Device where
  type : Nat
  index : Nat
deriving DecidableEq

/-- Modelled from the spec: `patrickstar.core.const.ChunkState` is imported by
the eviction policy but its module is not among the source files.  The spec
requires at least COMPUTE (actively in use), RELEASED (already free) and other
movable states; HOLD and FREE stand for the movable ones. -/
inductive ChunkState where
  | COMPUTE
  | HOLD
  | FREE
  | RELEASED
deriving DecidableEq

/-- The read-only view of a chunk consumed by the engine: placement
(`get_device`, `None` when unplaced), state (`get_state`), pin flag
(`is_pin`) and payload size in bytes (`get_payload_space`). -/
structure Chunk where
  device : Option Device
  state : ChunkState
  pinned : Bool
  payload_space : Nat
deriving DecidableEq

def Chunk.get_device (c : Chunk) : Option Device := c.device

def Chunk.get_state (c : Chunk) : ChunkState := c.state

def Chunk.is_pin (c : Chunk) : Bool := c.pinned

def Chunk.get_payload_space (c : Chunk) : Nat := c.payload_space

/-- Modelled from the spec: `patrickstar.utils.Metronome` is imported by the
eviction policy but its module is not among the source files.  The policy
only reads the three accessors `moment`, `total_moment` and `is_warmup`;
`moment` is mutated by an external step-advance call. -/
structure Metronome where
  moment : Nat
  total_moment : Nat
  is_warmup : Bool
deriving DecidableEq

/-- The mutable state of `ChunkEvictionPolicyBase`: the per-(chunk, device)
access trace `chunk_access_dict` and the (externally advanced) metronome. -/
structure EvictionPolicyState where
  chunk_access_dict : List ((Nat × Device) × List Nat)
  metronome : Metronome
deriving DecidableEq

/-- First-match association-list lookup, the model of `dict[key]` /
`key in dict` (keys inserted by `trace_access` are unique). -/
def dictLookup (d : List ((Nat × Device) × List Nat)) (k : Nat × Device) :
    Option (List Nat) :=
  match d with
  | [] => none
  | (k2, v) :: rest => if k2 = k then some v else dictLookup rest k

/-- Replace the value stored at the first occurrence of key `k`, the model of
`dict[key] = v` for a present key. -/
def dictUpdate (d : List ((Nat × Device) × List Nat)) (k : Nat × Device)
    (v : List Nat) : List ((Nat × Device) × List Nat) :=
  match d with
  | [] => []
  | (k2, v2) :: rest =>
    if k2 = k then (k2, v) :: rest else (k2, v2) :: dictUpdate rest k v

/-- `ChunkEvictionPolicyBase.trace_access(chunk_id, dev)`: append the
metronome's current moment to the (chunk, device) trace, creating the entry
on first access.  The source performs `dict[key] = []` followed by
`dict[key].append(cur_mom)`; the two branches below are the two cases of the
`not in` test. -/
def trace_access (st : EvictionPolicyState) (chunk_id : Nat) (dev : Device) :
    EvictionPolicyState :=
  let cur_mom := st.metronome.moment
  match dictLookup st.chunk_access_dict (chunk_id, dev) with
  | none =>
    { st with chunk_access_dict :=
        st.chunk_access_dict ++ [((chunk_id, dev), [cur_mom])] }
  | some l =>
    { st with chunk_access_dict :=
        dictUpdate st.chunk_access_dict (chunk_id, dev) (l ++ [cur_mom]) }

/-- The `for mom in access_mom_list: if mom > cur_mom: return mom` scan of
`_chunk_next_used_moment`; `none` models falling through the loop. -/
def scanNext (cur_mom : Nat) : List Nat → Option Nat
  | [] => none
  | m :: rest => if m > cur_mom then some m else scanNext cur_mom rest

/-- `ChunkEvictionPolicyBase._chunk_next_used_moment(chunk_id, dev)`.
The fall-through branch returns `total_mom + access_mom_list[0]`; every trace
stored by `trace_access` is non-empty, so `headD 0` agrees with the source's
`[0]` indexing on all reachable states. -/
def chunk_next_used_moment (st : EvictionPolicyState) (chunk_id : Nat)
    (dev : Device) : Nat :=
  if st.metronome.is_warmup then 0
  else
    let cur_mom := st.metronome.moment
    let total_mom := st.metronome.total_moment
    match dictLookup st.chunk_access_dict (chunk_id, dev) with
    | none => 2 * total_mom
    | some access_mom_list =>
      match scanNext cur_mom access_mom_list with
      | some m => m
      | none => total_mom + access_mom_list.headD 0

/-- The candidate filter of `derive_eviction_list`: on a device of the
target's type, neither COMPUTE nor RELEASED, and not pinned. -/
def is_evictable (target_device : Device) (chunk : Chunk) : Bool :=
  match chunk.get_device with
  | none => false
  | some d =>
    decide (d.type = target_device.type) &&
    decide (chunk.get_state ≠ ChunkState.COMPUTE) &&
    decide (chunk.get_state ≠ ChunkState.RELEASED) &&
    !chunk.is_pin

/-- Python's `enumerate`, starting at index `i`. -/
def enumerateFrom (i : Nat) : List α → List (Nat × α)
  | [] => []
  | a :: rest => (i, a) :: enumerateFrom (i + 1) rest

/-- Python's `enumerate(chunks)`. -/
def enumerate (l : List α) : List (Nat × α) := enumerateFrom 0 l

/-- `chunks[chunk_id].get_payload_space()`; every identifier produced by
`enumerate` is in range, so the `none` default is never reached on the
queue's contents. -/
def payloadAt (chunks : List Chunk) (i : Nat) : Nat :=
  match chunks.get? i with
  | some c => c.get_payload_space
  | none => 0

/-- The entries `(next_mom, chunk_id)` pushed onto the priority queue, one per
chunk passing the filter (the source pushes `(-next_mom, chunk_id)`; we keep
`next_mom` positive and build the negation into the order `queueRel`). -/
def candidatePairs (st : EvictionPolicyState) (chunks : List Chunk)
    (target_device : Device) : List (Nat × Nat) :=
  ((enumerate chunks).filter (fun p => is_evictable target_device p.2)).map
    (fun p => (chunk_next_used_moment st p.1 target_device, p.1))

/-- Ascending order on the pushed tuples `(-next_mom, chunk_id)`:
larger `next_mom` first, ties by ascending chunk identifier. -/
def queueRel (a b : Nat × Nat) : Prop :=
  b.1 < a.1 ∨ (a.1 = b.1 ∧ a.2 ≤ b.2)

instance : DecidableRel queueRel := fun a b => by unfold queueRel; infer_instance

instance : IsTotal (Nat × Nat) queueRel := ⟨by intro a b; unfold queueRel; omega⟩

instance : IsTrans (Nat × Nat) queueRel := ⟨by intro a b c; unfold queueRel; omega⟩

/-- The pop order of the priority queue: its pairwise-distinct entries in
ascending `queueRel` order. -/
def sortedQueue (st : EvictionPolicyState) (chunks : List Chunk)
    (target_device : Device) : List (Nat × Nat) :=
  List.insertionSort queueRel (candidatePairs st chunks target_device)

/-- The `while not q.empty()` greedy loop: pop, accumulate the chunk's payload
bytes, append the identifier, and break once `moved_bytes >= need_bytes`.
Returns the final `(moved_list, moved_bytes)`. -/
def greedyEvict (chunks : List Chunk) (need_bytes : Int) :
    List (Nat × Nat) → Nat → List Nat × Nat
  | [], moved_bytes => ([], moved_bytes)
  | p :: rest, moved_bytes =>
    let moved2 := moved_bytes + payloadAt chunks p.2
    if (moved2 : Int) ≥ need_bytes then ([p.2], moved2)
    else
      let r := greedyEvict chunks need_bytes rest moved2
      (p.2 :: r.1, r.2)

/-- `LRUEvictionPolicy.derive_eviction_list(chunks, need_bytes, target_device)`
together with its observable diagnostic: the second component is `true` iff
the final `moved_bytes < need_bytes` check fires, i.e. iff the
`log_dist(..., WARNING)` under-fulfilment entry is emitted.  The source never
raises on any input, so the model is a total function. -/
def derive_eviction_result (st : EvictionPolicyState) (chunks : List Chunk)
    (need_bytes : Int) (target_device : Device) : List Nat × Bool :=
  let r := greedyEvict chunks need_bytes (sortedQueue st chunks target_device) 0
  (r.1, decide ((r.2 : Int) < need_bytes))

/-- The eviction plan returned to the caller. -/
def derive_eviction_list (st : EvictionPolicyState) (chunks : List Chunk)
    (need_bytes : Int) (target_device : Device) : List Nat :=
  (derive_eviction_result st chunks need_bytes target_device).1

/-- Sum of payload bytes over all evictable candidates. -/
def totalEvictableBytes (st : EvictionPolicyState) (chunks : List Chunk)
    (target_device : Device) : Nat :=
  ((candidatePairs st chunks target_device).map
    (fun p => payloadAt chunks p.2)).sum

/-- Sum of payload bytes freed by a plan. -/
def planBytes (chunks : List Chunk) (plan : List Nat) : Nat :=
  (plan.map (payloadAt chunks)).sum

/-- The metronome's `moment` is advanced by an external call between engine
invocations; this models that external mutation. -/
def set_moment (st : EvictionPolicyState) (m : Nat) : EvictionPolicyState :=
  { st with metronome := { st.metronome with moment := m } }

/-- Convenient constructor for concrete engine states. -/
def mkState (warm : Bool) (mom : Nat) (total : Nat)
    (d : List ((Nat × Device) × List Nat)) : EvictionPolicyState :=
  { chunk_access_dict := d,
    metronome := { moment := mom, total_moment := total, is_warmup := warm } }

/-- The device used by all concrete examples. -/
def dev0 : Device := { type := 0, index := 0 }

/-- Post-warm-up state with `total_moment = 10`, trace `[2, 7]` for chunk 0 on
`dev0`, current moment 8. -/
def stTrace8 : EvictionPolicyState := mkState false 8 10 [((0, dev0), [2, 7])]

/-- Same trace, current moment 5. -/
def stTrace5 : EvictionPolicyState := mkState false 5 10 [((0, dev0), [2, 7])]

/-- Same trace, current moment 9. -/
def stTrace9 : EvictionPolicyState := mkState false 9 10 [((0, dev0), [2, 7])]

/-- Post-warm-up state for the end-to-end scenario: `total_moment = 20`,
current moment 0, chunks 0/1/2 next used at moments 3/9/6 on `dev0`. -/
def stScenario : EvictionPolicyState :=
  mkState false 0 20 [((0, dev0), [3]), ((1, dev0), [9]), ((2, dev0), [6])]

/-- The scenario registry: A = chunk 0 (500 bytes), B = chunk 1 (300 bytes),
C = chunk 2 (200 bytes), all movable on `dev0`. -/
def chunksScenario : List Chunk :=
  [ { device := some dev0, state := ChunkState.HOLD, pinned := false,
      payload_space := 500 },
    { device := some dev0, state := ChunkState.HOLD, pinned := false,
      payload_space := 300 },
    { device := some dev0, state := ChunkState.HOLD, pinned := false,
      payload_space := 200 } ]

/-- A warm-up state (`is_warmup = true`). -/
def stWarm : EvictionPolicyState := mkState true 3 10 [((0, dev0), [2])]

/-! ### Helper lemmas about the trace scan -/

theorem scanNext_eq_none {cur : Nat} {l : List Nat} :
    scanNext cur l = none ↔ ∀ m ∈ l, m ≤ cur := by
  induction l with
  | nil => simp [scanNext]
  | cons a rest ih =>
    by_cases h : a > cur
    · simp [scanNext, h]
    · simp only [scanNext, if_neg h, ih, List.mem_cons]
      constructor
      · rintro hall m (rfl | hm)
        · omega
        · exact hall m hm
      · intro hall m hm; exact hall m (Or.inr hm)

theorem scanNext_eq_some {cur m : Nat} {l : List Nat}
    (h : scanNext cur l = some m) :
    ∃ pre post, l = pre ++ m :: post ∧ (∀ x ∈ pre, x ≤ cur) ∧ cur < m := by
  induction l with
  | nil => simp [scanNext] at h
  | cons a rest ih =>
    by_cases hc : a > cur
    · simp only [scanNext, if_pos hc, Option.some.injEq] at h
      exact ⟨[], rest, by simp [h], by simp, by omega⟩
    · simp only [scanNext, if_neg hc] at h
      obtain ⟨pre, post, hl, hpre, hm⟩ := ih h
      refine ⟨a :: pre, post, by simp [hl], ?_, hm⟩
      intro x hx
      rcases List.mem_cons.mp hx with rfl | hx
      · omega
      · exact hpre x hx

theorem scanNext_mem {cur m : Nat} {l : List Nat}
    (h : scanNext cur l = some m) : m ∈ l ∧ cur < m := by
  obtain ⟨pre, post, hl, -, hm⟩ := scanNext_eq_some h
  exact ⟨by simp [hl], hm⟩

/-! ### Helper lemmas about the association-list dictionary -/

theorem dictLookup_update_self {d : List ((Nat × Device) × List Nat)}
    {k : Nat × Device} {w : List Nat} (h : dictLookup d k = some w)
    (v : List Nat) : dictLookup (dictUpdate d k v) k = some v := by
  induction d with
  | nil => simp [dictLookup] at h
  | cons e rest ih =>
    obtain ⟨k2, v2⟩ := e
    by_cases hk : k2 = k
    · simp [dictLookup, dictUpdate, hk]
    · simp only [dictLookup, dictUpdate, if_neg hk] at h ⊢
      exact ih h

theorem dictLookup_update_other {d : List ((Nat × Device) × List Nat)}
    {k k2 : Nat × Device} (h : k2 ≠ k) (v : List Nat) :
    dictLookup (dictUpdate d k v) k2 = dictLookup d k2 := by
  induction d with
  | nil => simp [dictUpdate]
  | cons e rest ih =>
    obtain ⟨k3, v3⟩ := e
    by_cases hk : k3 = k
    · subst hk
      simp [dictLookup, dictUpdate, Ne.symm h]
    · simp only [dictUpdate, if_neg hk, dictLookup]
      by_cases hk2 : k3 = k2 <;> simp [hk2, ih]

theorem dictLookup_append_self {d : List ((Nat × Device) × List Nat)}
    {k : Nat × Device} (h : dictLookup d k = none) (v : List Nat) :
    dictLookup (d ++ [(k, v)]) k = some v := by
  induction d with
  | nil => simp [dictLookup]
  | cons e rest ih =>
    obtain ⟨k2, v2⟩ := e
    by_cases hk : k2 = k
    · simp [dictLookup, hk] at h
    · simp only [dictLookup, if_neg hk, List.cons_append] at h ⊢
      exact ih h

theorem dictLookup_append_other {d : List ((Nat × Device) × List Nat)}
    {k k2 : Nat × Device} (h : k2 ≠ k) (v : List Nat) :
    dictLookup (d ++ [(k, v)]) k2 = dictLookup d k2 := by
  induction d with
  | nil => simp [dictLookup, Ne.symm h]
  | cons e rest ih =>
    obtain ⟨k3, v3⟩ := e
    by_cases hk : k3 = k2 <;> simp [dictLookup, hk, ih]

/-! ### Helper lemmas about the greedy loop -/

theorem greedyEvict_sublist (chunks : List Chunk) (need_bytes : Int)
    (q : List (Nat × Nat)) (acc : Nat) :
    (greedyEvict chunks need_bytes q acc).1.Sublist (q.map Prod.snd) := by
  induction q generalizing acc with
  | nil => simp [greedyEvict]
  | cons p rest ih =>
    simp only [greedyEvict, List.map_cons]
    by_cases h : ((acc + payloadAt chunks p.2 : Nat) : Int) ≥ need_bytes
    · simp only [if_pos h]
      exact List.Sublist.cons₂ p.2 (List.nil_sublist _)
    · simp only [if_neg h]
      exact List.Sublist.cons₂ p.2 (ih _)

theorem greedyEvict_bytes (chunks : List Chunk) (need_bytes : Int)
    (q : List (Nat × Nat)) (acc : Nat) :
    (greedyEvict chunks need_bytes q acc).2 =
      acc + planBytes chunks (greedyEvict chunks need_bytes q acc).1 := by
  induction q generalizing acc with
  | nil => simp [greedyEvict, planBytes]
  | cons p rest ih =>
    simp only [greedyEvict]
    split
    · simp [planBytes]
    · simp only []
      rw [ih]
      simp only [planBytes, List.map_cons, List.sum_cons]
      omega

theorem greedyEvict_all_of_insufficient (chunks : List Chunk)
    (need_bytes : Int) (q : List (Nat × Nat)) (acc : Nat)
    (h : ((acc + (q.map (fun p => payloadAt chunks p.2)).sum : Nat) : Int)
          < need_bytes) :
    (greedyEvict chunks need_bytes q acc).1 = q.map Prod.snd := by
  induction q generalizing acc with
  | nil => simp [greedyEvict]
  | cons p rest ih =>
    simp only [List.map_cons, List.sum_cons] at h
    generalize hs : (rest.map (fun p => payloadAt chunks p.2)).sum = s at h
    simp only [greedyEvict, List.map_cons]
    split
    · rename_i hge
      exfalso
      omega
    · rename_i hge
      simp only [List.cons.injEq, true_and]
      rw [ih]
      rw [hs]
      omega

theorem greedyEvict_sufficient (chunks : List Chunk) (need_bytes : Int)
    (q : List (Nat × Nat)) (acc : Nat)
    (h : ((acc + (q.map (fun p => payloadAt chunks p.2)).sum : Nat) : Int)
          ≥ need_bytes) :
    (((greedyEvict chunks need_bytes q acc).2 : Nat) : Int) ≥ need_bytes := by
  induction q generalizing acc with
  | nil => simpa [greedyEvict] using h
  | cons p rest ih =>
    simp only [List.map_cons, List.sum_cons] at h
    generalize hs : (rest.map (fun p => payloadAt chunks p.2)).sum = s at h
    simp only [greedyEvict]
    split
    · rename_i hge
      simpa using hge
    · rename_i hge
      simp only []
      have := ih (acc + payloadAt chunks p.2)
      rw [hs] at this
      apply this
      omega

theorem greedyEvict_neg_need (chunks : List Chunk) {need_bytes : Int}
    (h : need_bytes ≤ 0) (q : List (Nat × Nat)) (acc : Nat) :
    (greedyEvict chunks need_bytes q acc).1 =
      (greedyEvict chunks 0 q acc).1 := by
  cases q with
  | nil => rfl
  | cons p rest =>
    simp only [greedyEvict]
    split
    · split
      · rfl
      · rename_i hge hlt
        exfalso
        omega
    · rename_i hge
      exfalso
      omega

/-! ### Helper lemmas about the candidate list and the queue order -/

theorem mem_enumerateFrom {α : Type} {p : Nat × α} {l : List α} :
    ∀ {i : Nat}, p ∈ enumerateFrom i l → i ≤ p.1 ∧ l.get? (p.1 - i) = some p.2 := by
  induction l with
  | nil => intro i h; simp [enumerateFrom] at h
  | cons a rest ih =>
    intro i h
    rcases List.mem_cons.mp h with rfl | h
    · simp
    · obtain ⟨h1, h2⟩ := ih h
      refine ⟨by omega, ?_⟩
      have : p.1 - i = (p.1 - (i + 1)) + 1 := by omega
      rw [this]
      simpa using h2

theorem mem_enumerate {α : Type} {p : Nat × α} {l : List α}
    (h : p ∈ enumerate l) : l.get? p.1 = some p.2 := by
  have := mem_enumerateFrom h
  simpa using this.2

theorem enumerateFrom_pairwise {α : Type} (l : List α) :
    ∀ (i : Nat), (enumerateFrom i l).Pairwise (fun a b => a.1 < b.1) := by
  induction l with
  | nil => intro i; simp [enumerateFrom]
  | cons a rest ih =>
    intro i
    refine List.Pairwise.cons ?_ (ih (i + 1))
    intro b hb
    have := (mem_enumerateFrom hb).1
    simpa using by omega

theorem candidatePairs_mem {st : EvictionPolicyState} {chunks : List Chunk}
    {target_device : Device} {p : Nat × Nat}
    (h : p ∈ candidatePairs st chunks target_device) :
    p.1 = chunk_next_used_moment st p.2 target_device ∧
      ∃ c, chunks.get? p.2 = some c ∧ is_evictable target_device c = true := by
  unfold candidatePairs at h
  obtain ⟨q, hq, hpq⟩ := List.mem_map.mp h
  obtain ⟨hqmem, hqf⟩ := List.mem_filter.mp hq
  have hget := mem_enumerate hqmem
  subst hpq
  exact ⟨rfl, q.2, hget, hqf⟩

theorem candidatePairs_pairwise_snd (st : EvictionPolicyState)
    (chunks : List Chunk) (target_device : Device) :
    (candidatePairs st chunks target_device).Pairwise
      (fun a b => a.2 < b.2) := by
  unfold candidatePairs
  rw [List.pairwise_map]
  exact ((enumerateFrom_pairwise chunks 0).filter _).imp (fun h => h)

theorem sortedQueue_perm (st : EvictionPolicyState) (chunks : List Chunk)
    (target_device : Device) :
    List.Perm (sortedQueue st chunks target_device)
      (candidatePairs st chunks target_device) :=
  List.perm_insertionSort queueRel _

theorem sortedQueue_mem {st : EvictionPolicyState} {chunks : List Chunk}
    {target_device : Device} {p : Nat × Nat}
    (h : p ∈ sortedQueue st chunks target_device) :
    p.1 = chunk_next_used_moment st p.2 target_device ∧
      ∃ c, chunks.get? p.2 = some c ∧ is_evictable target_device c = true :=
  candidatePairs_mem ((sortedQueue_perm st chunks target_device).mem_iff.mp h)

theorem sortedQueue_pairwise_strict (st : EvictionPolicyState)
    (chunks : List Chunk) (target_device : Device) :
    (sortedQueue st chunks target_device).Pairwise
      (fun a b => b.1 < a.1 ∨ (a.1 = b.1 ∧ a.2 < b.2)) := by
  have hrel : (sortedQueue st chunks target_device).Pairwise queueRel :=
    List.sorted_insertionSort queueRel _
  have hne : (sortedQueue st chunks target_device).Pairwise
      (fun a b : Nat × Nat => a.2 ≠ b.2) := by
    refine ((sortedQueue_perm st chunks target_device).pairwise_iff
      (fun h => Ne.symm h)).mpr ?_
    exact (candidatePairs_pairwise_snd st chunks target_device).imp
      (fun h => by omega)
  refine (hrel.and hne).imp ?_
  intro a b hab
  obtain ⟨hr, hne2⟩ := hab
  unfold queueRel at hr
  omega

/-- The plan is ordered by non-increasing predicted next-use moment, with ties
broken by ascending chunk identifier. -/
theorem derive_plan_pairwise (st : EvictionPolicyState) (chunks : List Chunk)
    (need_bytes : Int) (target_device : Device) :
    (derive_eviction_list st chunks need_bytes target_device).Pairwise
      (fun i j =>
        chunk_next_used_moment st j target_device <
            chunk_next_used_moment st i target_device ∨
          (chunk_next_used_moment st i target_device =
              chunk_next_used_moment st j target_device ∧ i < j)) := by
  have hq := sortedQueue_pairwise_strict st chunks target_device
  have hmap : ((sortedQueue st chunks target_device).map Prod.snd).Pairwise
      (fun i j =>
        chunk_next_used_moment st j target_device <
            chunk_next_used_moment st i target_device ∨
          (chunk_next_used_moment st i target_device =
              chunk_next_used_moment st j target_device ∧ i < j)) := by
    rw [List.pairwise_map]
    refine hq.imp_of_mem ?_
    intro a b ha hb hab
    have hka := (sortedQueue_mem ha).1
    have hkb := (sortedQueue_mem hb).1
    rw [hka, hkb] at hab
    exact hab
  exact hmap.sublist (greedyEvict_sublist chunks need_bytes _ 0)

/-! ### Unfolding equations for the derive entry points -/

theorem derive_eviction_list_eq (st : EvictionPolicyState) (chunks : List Chunk)
    (need_bytes : Int) (target_device : Device) :
    derive_eviction_list st chunks need_bytes target_device =
      (greedyEvict chunks need_bytes (sortedQueue st chunks target_device) 0).1 :=
  rfl

theorem derive_result_flag_eq (st : EvictionPolicyState) (chunks : List Chunk)
    (need_bytes : Int) (target_device : Device) :
    (derive_eviction_result st chunks need_bytes target_device).2 =
      decide
        (((greedyEvict chunks need_bytes
            (sortedQueue st chunks target_device) 0).2 : Int) < need_bytes) :=
  rfl

theorem sortedQueue_sum_payload (st : EvictionPolicyState) (chunks : List Chunk)
    (target_device : Device) :
    ((sortedQueue st chunks target_device).map
        (fun p => payloadAt chunks p.2)).sum =
      totalEvictableBytes st chunks target_device :=
  ((sortedQueue_perm st chunks target_device).map _).sum_eq

theorem chunk_next_used_moment_of_some {st : EvictionPolicyState}
    {chunk_id : Nat} {dev : Device} {l : List Nat}
    (hw : st.metronome.is_warmup = false)
    (hl : dictLookup st.chunk_access_dict (chunk_id, dev) = some l) :
    chunk_next_used_moment st chunk_id dev =
      match scanNext st.metronome.moment l with
      | some m => m
      | none => st.metronome.total_moment + l.headD 0 := by
  unfold chunk_next_used_moment
  rw [hw, hl]
  simp

theorem chunk_next_used_moment_of_none {st : EvictionPolicyState}
    {chunk_id : Nat} {dev : Device}
    (hw : st.metronome.is_warmup = false)
    (hl : dictLookup st.chunk_access_dict (chunk_id, dev) = none) :
    chunk_next_used_moment st chunk_id dev = 2 * st.metronome.total_moment := by
  unfold chunk_next_used_moment
  rw [hw, hl]
  simp

/-! ### The claims -/

/-- C1: post-warm-up, with a non-empty recorded trace, the prediction is the
first recorded moment strictly greater than the current moment when one
exists, and `total_moment + first_recorded_moment` otherwise; in particular
with `total_moment = 10` and trace `[2, 7]`, current moments 8, 5 and 9
predict 12, 7 and 12. -/
theorem C1_cyclic_prediction :
    (∀ (st : EvictionPolicyState) (chunk_id : Nat) (dev : Device) (l : List Nat),
      st.metronome.is_warmup = false →
      dictLookup st.chunk_access_dict (chunk_id, dev) = some l →
      l ≠ [] →
      ((∃ pre m post, l = pre ++ m :: post ∧
          (∀ x ∈ pre, x ≤ st.metronome.moment) ∧
          st.metronome.moment < m ∧
          chunk_next_used_moment st chunk_id dev = m) ∨
        ((∀ m ∈ l, m ≤ st.metronome.moment) ∧
          chunk_next_used_moment st chunk_id dev =
            st.metronome.total_moment + l.headD 0))) ∧
    chunk_next_used_moment stTrace8 0 dev0 = 12 ∧
    chunk_next_used_moment stTrace5 0 dev0 = 7 ∧
    chunk_next_used_moment stTrace9 0 dev0 = 12 := by
  refine ⟨?_, by decide, by decide, by decide⟩
  intro st chunk_id dev l hw hl hne
  have heq := chunk_next_used_moment_of_some hw hl
  cases hscan : scanNext st.metronome.moment l with
  | some m =>
    rw [hscan] at heq
    obtain ⟨pre, post, hlp, hpre, hm⟩ := scanNext_eq_some hscan
    exact Or.inl ⟨pre, m, post, hlp, hpre, hm, heq⟩
  | none =>
    rw [hscan] at heq
    exact Or.inr ⟨scanNext_eq_none.mp hscan, heq⟩

/-- Witness for C1 at the concrete state with trace `[2, 7]`, `total_moment
= 10` and current moment 8. -/
theorem C1_cyclic_prediction_witness :
    (∃ pre m post, ([2, 7] : List Nat) = pre ++ m :: post ∧
        (∀ x ∈ pre, x ≤ stTrace8.metronome.moment) ∧
        stTrace8.metronome.moment < m ∧
        chunk_next_used_moment stTrace8 0 dev0 = m) ∨
      ((∀ m ∈ ([2, 7] : List Nat), m ≤ stTrace8.metronome.moment) ∧
        chunk_next_used_moment stTrace8 0 dev0 =
          stTrace8.metronome.total_moment + ([2, 7] : List Nat).headD 0) :=
  C1_cyclic_prediction.1 stTrace8 0 dev0 [2, 7] (by decide) (by decide)
    (by decide)

/-- C6: post-warm-up, a (chunk, device) pair with no recorded trace predicts
`2 * total_moment`, and when every recorded moment of a traced chunk is below
`total_moment` its prediction is strictly below `2 * total_moment`; in
particular an untraced chunk with `total_moment = 10` predicts 20. -/
theorem C6_unseen_chunk_penalty :
    (∀ (st : EvictionPolicyState) (chunk_id : Nat) (dev : Device),
      st.metronome.is_warmup = false →
      dictLookup st.chunk_access_dict (chunk_id, dev) = none →
      chunk_next_used_moment st chunk_id dev =
        2 * st.metronome.total_moment) ∧
    (∀ (st : EvictionPolicyState) (chunk_id : Nat) (dev : Device) (l : List Nat),
      st.metronome.is_warmup = false →
      dictLookup st.chunk_access_dict (chunk_id, dev) = some l →
      l ≠ [] →
      (∀ m ∈ l, m < st.metronome.total_moment) →
      chunk_next_used_moment st chunk_id dev <
        2 * st.metronome.total_moment) ∧
    chunk_next_used_moment stTrace8 1 dev0 = 20 := by
  refine ⟨?_, ?_, by decide⟩
  · intro st chunk_id dev hw hl
    exact chunk_next_used_moment_of_none hw hl
  · intro st chunk_id dev l hw hl hne hall
    have heq := chunk_next_used_moment_of_some hw hl
    cases hscan : scanNext st.metronome.moment l with
    | some m =>
      rw [hscan] at heq
      have heq2 : chunk_next_used_moment st chunk_id dev = m := heq
      obtain ⟨hmem, -⟩ := scanNext_mem hscan
      have := hall m hmem
      omega
    | none =>
      rw [hscan] at heq
      have heq2 : chunk_next_used_moment st chunk_id dev =
          st.metronome.total_moment + l.headD 0 := heq
      cases l with
      | nil => exact absurd rfl hne
      | cons a rest =>
        have := hall a (by simp)
        simp only [List.headD_cons] at heq2
        omega

/-- Witness for C6 at a state with `total_moment = 10`: chunk 1 has no trace
and predicts 20; chunk 0 with trace `[2, 7]` (all moments below 10) predicts
below 20. -/
theorem C6_unseen_chunk_penalty_witness :
    chunk_next_used_moment stTrace8 1 dev0 =
        2 * stTrace8.metronome.total_moment ∧
      chunk_next_used_moment stTrace8 0 dev0 <
        2 * stTrace8.metronome.total_moment :=
  ⟨C6_unseen_chunk_penalty.1 stTrace8 1 dev0 (by decide) (by decide),
   C6_unseen_chunk_penalty.2.1 stTrace8 0 dev0 [2, 7] (by decide) (by decide)
     (by decide) (by decide)⟩

/-- C7: during warm-up the predictor returns 0 for every chunk and device,
and the plan returned by `derive_eviction_list` lists chunk identifiers in
ascending order. -/
theorem C7_warmup_tie_behavior :
    (∀ (st : EvictionPolicyState) (chunk_id : Nat) (dev : Device),
      st.metronome.is_warmup = true →
      chunk_next_used_moment st chunk_id dev = 0) ∧
    (∀ (st : EvictionPolicyState) (chunks : List Chunk) (need_bytes : Int)
      (target_device : Device),
      st.metronome.is_warmup = true →
      (derive_eviction_list st chunks need_bytes target_device).Pairwise
        (fun i j => i < j)) := by
  have h0 : ∀ (st : EvictionPolicyState) (chunk_id : Nat) (dev : Device),
      st.metronome.is_warmup = true →
      chunk_next_used_moment st chunk_id dev = 0 := by
    intro st chunk_id dev hw
    unfold chunk_next_used_moment
    rw [hw]
    simp
  refine ⟨h0, ?_⟩
  intro st chunks need_bytes target_device hw
  refine (derive_plan_pairwise st chunks need_bytes target_device).imp ?_
  intro i j hij
  rcases hij with hlt | ⟨-, hij⟩
  · rw [h0 st i target_device hw, h0 st j target_device hw] at hlt
    omega
  · exact hij

/-- Witness for C7 at a warm-up state over the scenario registry. -/
theorem C7_warmup_tie_behavior_witness :
    chunk_next_used_moment stWarm 0 dev0 = 0 ∧
      (derive_eviction_list stWarm chunksScenario 1000 dev0).Pairwise
        (fun i j => i < j) :=
  ⟨C7_warmup_tie_behavior.1 stWarm 0 dev0 (by decide),
   C7_warmup_tie_behavior.2 stWarm chunksScenario 1000 dev0 (by decide)⟩

/-- C2: the plan lists chunk identifiers in order of non-increasing predicted
next-use moment, ties broken by ascending chunk identifier; in the concrete
scenario (A = 500 bytes/next-use 3, B = 300/9, C = 200/6, 400 bytes required)
the plan is exactly `[B, C]` = `[1, 2]`. -/
theorem C2_plan_ordering :
    (∀ (st : EvictionPolicyState) (chunks : List Chunk) (need_bytes : Int)
      (target_device : Device),
      (derive_eviction_list st chunks need_bytes target_device).Pairwise
        (fun i j =>
          chunk_next_used_moment st j target_device <
              chunk_next_used_moment st i target_device ∨
            (chunk_next_used_moment st i target_device =
                chunk_next_used_moment st j target_device ∧ i < j))) ∧
    derive_eviction_list stScenario chunksScenario 400 dev0 = [1, 2] :=
  ⟨fun st chunks need_bytes target_device =>
    derive_plan_pairwise st chunks need_bytes target_device, by decide⟩

/-- C3: whenever the payload bytes of all evictable candidates cover the
requirement, the plan's total payload bytes cover it too. -/
theorem C3_monotonic_sufficiency (st : EvictionPolicyState)
    (chunks : List Chunk) (need_bytes : Int) (target_device : Device)
    (h : ((totalEvictableBytes st chunks target_device : Nat) : Int) ≥
      need_bytes) :
    ((planBytes chunks
        (derive_eviction_list st chunks need_bytes target_device) : Nat) : Int)
      ≥ need_bytes := by
  have hsum := sortedQueue_sum_payload st chunks target_device
  have hsuff := greedyEvict_sufficient chunks need_bytes
    (sortedQueue st chunks target_device) 0 (by rw [hsum]; simpa using h)
  have hb := greedyEvict_bytes chunks need_bytes
    (sortedQueue st chunks target_device) 0
  rw [derive_eviction_list_eq]
  rw [hb] at hsuff
  simpa using hsuff

/-- Witness for C3 on the concrete scenario: 1000 evictable bytes cover the
400 required, and the plan frees at least 400. -/
theorem C3_monotonic_sufficiency_witness :
    ((planBytes chunksScenario
        (derive_eviction_list stScenario chunksScenario 400 dev0) : Nat) : Int)
      ≥ 400 :=
  C3_monotonic_sufficiency stScenario chunksScenario 400 dev0 (by decide)

/-- C4: every chunk identifier in a plan refers to a chunk on a device of the
target's type that is neither COMPUTE nor RELEASED and is not pinned (so a
COMPUTE-state or pinned chunk never appears in a plan). -/
theorem C4_admissibility (st : EvictionPolicyState) (chunks : List Chunk)
    (need_bytes : Int) (target_device : Device) (i : Nat)
    (h : i ∈ derive_eviction_list st chunks need_bytes target_device) :
    ∃ c, chunks.get? i = some c ∧
      (∃ d, c.get_device = some d ∧ d.type = target_device.type) ∧
      c.get_state ≠ ChunkState.COMPUTE ∧
      c.get_state ≠ ChunkState.RELEASED ∧
      c.is_pin = false := by
  rw [derive_eviction_list_eq] at h
  have hsub := greedyEvict_sublist chunks need_bytes
    (sortedQueue st chunks target_device) 0
  have hmem : i ∈ (sortedQueue st chunks target_device).map Prod.snd :=
    hsub.subset h
  obtain ⟨p, hp, hpi⟩ := List.mem_map.mp hmem
  obtain ⟨-, c, hc, hev⟩ := sortedQueue_mem hp
  rw [hpi] at hc
  refine ⟨c, hc, ?_⟩
  unfold is_evictable at hev
  cases hd : c.get_device with
  | none => rw [hd] at hev; simp at hev
  | some d =>
    rw [hd] at hev
    simp only [Bool.and_eq_true, decide_eq_true_eq, Bool.not_eq_true'] at hev
    obtain ⟨⟨⟨h1, h2⟩, h3⟩, h4⟩ := hev
    exact ⟨⟨d, rfl, h1⟩, h2, h3, h4⟩

/-- Witness for C4: chunk 1 is in the concrete scenario's plan and satisfies
the admissibility filter. -/
theorem C4_admissibility_witness :
    ∃ c, chunksScenario.get? 1 = some c ∧
      (∃ d, c.get_device = some d ∧ d.type = dev0.type) ∧
      c.get_state ≠ ChunkState.COMPUTE ∧
      c.get_state ≠ ChunkState.RELEASED ∧
      c.is_pin = false :=
  C4_admissibility stScenario chunksScenario 400 dev0 1 (by decide)

/-- C5: when the evictable candidates cannot cover the requirement, the plan
contains every evictable candidate, the under-fulfilment diagnostic is
emitted, and (the model being a total function, like the source, which never
raises) no exception occurs. -/
theorem C5_under_fulfilment (st : EvictionPolicyState) (chunks : List Chunk)
    (need_bytes : Int) (target_device : Device)
    (h : ((totalEvictableBytes st chunks target_device : Nat) : Int) <
      need_bytes) :
    (∀ p ∈ candidatePairs st chunks target_device,
        p.2 ∈ derive_eviction_list st chunks need_bytes target_device) ∧
      (derive_eviction_result st chunks need_bytes target_device).2 = true := by
  have hsum := sortedQueue_sum_payload st chunks target_device
  have hall := greedyEvict_all_of_insufficient chunks need_bytes
    (sortedQueue st chunks target_device) 0 (by rw [hsum]; simpa using h)
  constructor
  · intro p hp
    rw [derive_eviction_list_eq, hall]
    exact List.mem_map_of_mem Prod.snd
      ((sortedQueue_perm st chunks target_device).mem_iff.mpr hp)
  · rw [derive_result_flag_eq]
    have hb := greedyEvict_bytes chunks need_bytes
      (sortedQueue st chunks target_device) 0
    rw [hall] at hb
    have hmb : planBytes chunks
        ((sortedQueue st chunks target_device).map Prod.snd) =
        totalEvictableBytes st chunks target_device := by
      rw [← hsum]
      simp [planBytes, List.map_map]
      rfl
    rw [hb, hmb]
    simpa using h

/-- Witness for C5: requiring 2000 bytes from the scenario's 1000 evictable
bytes puts every candidate in the plan and fires the diagnostic. -/
theorem C5_under_fulfilment_witness :
    (∀ p ∈ candidatePairs stScenario chunksScenario dev0,
        p.2 ∈ derive_eviction_list stScenario chunksScenario 2000 dev0) ∧
      (derive_eviction_result stScenario chunksScenario 2000 dev0).2 = true :=
  C5_under_fulfilment stScenario chunksScenario 2000 dev0 (by decide)

/-- A post-warm-up state with an empty access trace, `total_moment = 10`,
current moment 7 (used to analyse post-warm-up `trace_access` calls). -/
def stNoTrace : EvictionPolicyState := mkState false 7 10 []

/-- C8 counterexample: a call with the negative required byte count `-1` is
not rejected — `derive_eviction_list` silently returns the ordinary plan
`[1]` (the source has no validation and no raise on this path) and does not
even emit the under-fulfilment diagnostic. -/
theorem C8_counterexample :
    derive_eviction_list stScenario chunksScenario (-1) dev0 = [1] ∧
      (derive_eviction_result stScenario chunksScenario (-1) dev0).2 =
        false := by
  decide

/-- C8 amended: `derive_eviction_list` performs no validation of the required
byte count; a negative (or zero) requirement is accepted and silently yields
exactly the plan produced for a requirement of zero bytes. -/
theorem C8_no_validation (st : EvictionPolicyState) (chunks : List Chunk)
    (target_device : Device) {need_bytes : Int} (h : need_bytes ≤ 0) :
    derive_eviction_list st chunks need_bytes target_device =
      derive_eviction_list st chunks 0 target_device := by
  rw [derive_eviction_list_eq, derive_eviction_list_eq]
  exact greedyEvict_neg_need chunks h _ 0

/-- Witness for the amended C8 at required byte count `-1`. -/
theorem C8_no_validation_witness :
    derive_eviction_list stScenario chunksScenario (-1) dev0 =
      derive_eviction_list stScenario chunksScenario 0 dev0 :=
  C8_no_validation stScenario chunksScenario dev0 (by decide)

/-- C9 counterexample: a `trace_access` call made after warm-up changes a
subsequent prediction.  Starting from a post-warm-up state with no trace
(`total_moment = 10`, moment 7), calling `trace_access(0, dev0)` and then
querying at moment 5 predicts 7, whereas without the call the prediction is
the unseen-chunk sentinel 20. -/
theorem C9_counterexample :
    chunk_next_used_moment (set_moment (trace_access stNoTrace 0 dev0) 5)
        0 dev0 = 7 ∧
      chunk_next_used_moment (set_moment stNoTrace 5) 0 dev0 = 20 := by
  decide

/-- C9 amended: a `trace_access` call is accepted in any phase and never
fails, but it is not prediction-neutral: it appends the current moment to the
(chunk, device) trace — creating the entry if absent — while leaving every
other trace and the metronome unchanged; subsequent predictions scan the
appended trace. -/
theorem C9_trace_access_appends (st : EvictionPolicyState) (chunk_id : Nat)
    (dev : Device) :
    (trace_access st chunk_id dev).metronome = st.metronome ∧
      dictLookup (trace_access st chunk_id dev).chunk_access_dict
          (chunk_id, dev) =
        some (((dictLookup st.chunk_access_dict (chunk_id, dev)).getD []) ++
          [st.metronome.moment]) ∧
      ∀ k, k ≠ (chunk_id, dev) →
        dictLookup (trace_access st chunk_id dev).chunk_access_dict k =
          dictLookup st.chunk_access_dict k := by
  cases hl : dictLookup st.chunk_access_dict (chunk_id, dev) with
  | none =>
    have ht : trace_access st chunk_id dev =
        { st with chunk_access_dict :=
            st.chunk_access_dict ++
              [((chunk_id, dev), [st.metronome.moment])] } := by
      unfold trace_access
      rw [hl]
    rw [ht]
    refine ⟨rfl, ?_, ?_⟩
    · simpa using dictLookup_append_self hl [st.metronome.moment]
    · intro k hk
      simpa using dictLookup_append_other hk [st.metronome.moment]
  | some l =>
    have ht : trace_access st chunk_id dev =
        { st with chunk_access_dict := (dictUpdate st.chunk_access_dict
            (chunk_id, dev) (l ++ [st.metronome.moment])) } := by
      unfold trace_access
      rw [hl]
    rw [ht]
    refine ⟨rfl, ?_, ?_⟩
    · simpa using dictLookup_update_self hl (l ++ [st.metronome.moment])
    · intro k hk
      exact dictLookup_update_other hk _

/-- Witness for the amended C9: the post-warm-up call on `stNoTrace` creates
the trace `[7]` for chunk 0 and leaves the key `(1, dev0)` untouched. -/
theorem C9_trace_access_appends_witness :
    (trace_access stNoTrace 0 dev0).metronome = stNoTrace.metronome ∧
      dictLookup (trace_access stNoTrace 0 dev0).chunk_access_dict (0, dev0) =
        some (((dictLookup stNoTrace.chunk_access_dict (0, dev0)).getD []) ++
          [stNoTrace.metronome.moment]) ∧
      dictLookup (trace_access stNoTrace 0 dev0).chunk_access_dict (1, dev0) =
        dictLookup stNoTrace.chunk_access_dict (1, dev0) := by
  obtain ⟨h1, h2, h3⟩ := C9_trace_access_appends stNoTrace 0 dev0
  exact ⟨h1, h2, h3 (1, dev0) (by decide)⟩

/-- C10: with at least one evictable candidate and a requirement of at most
zero bytes, the plan contains exactly one chunk identifier — never zero —
because the loop pops a candidate before first testing
`moved_bytes >= need_bytes`. -/
theorem C10_nonpositive_need_single (st : EvictionPolicyState)
    (chunks : List Chunk) (need_bytes : Int) (target_device : Device)
    (hne : candidatePairs st chunks target_device ≠ [])
    (h : need_bytes ≤ 0) :
    (derive_eviction_list st chunks need_bytes target_device).length = 1 := by
  rw [derive_eviction_list_eq]
  have hqne : sortedQueue st chunks target_device ≠ [] := by
    intro hq
    have hp := sortedQueue_perm st chunks target_device
    rw [hq] at hp
    exact hne hp.symm.eq_nil
  cases hq : sortedQueue st chunks target_device with
  | nil => exact absurd hq hqne
  | cons p rest =>
    simp only [greedyEvict]
    split
    · rfl
    · rename_i hge
      exfalso
      omega

/-- Witness for C10: the scenario registry with required byte count 0 yields
a one-element plan. -/
theorem C10_nonpositive_need_single_witness :
    (derive_eviction_list stScenario chunksScenario 0 dev0).length = 1 :=
  C10_nonpositive_need_single stScenario chunksScenario 0 dev0 (by decide)
    (by decide)
